import Mathlib

/-!
Shallow embedding of `free-proxy-scraper.py` and proofs about it.

The program is a linear pipeline: `fetch_proxies` scrapes a table of proxy
candidates, `main` validates each candidate concurrently with
`ThreadPoolExecutor(max_workers=100).map(check_proxy, proxies)`, and
`export_sorted_df` sorts the resulting DataFrame by the status column
(descending) and writes it to an Excel file with a timestamped name.

Network effects are modelled by oracles: each probe event is a
`ProbeOutcome` (a completed HTTP response with a status code, a raised
`requests.exceptions.RequestException`, or a raised exception of any other
class).  Exceptions that propagate are modelled with `Except`, where
`Except.error` is an exception escaping the function.
-/

/-- `Proxy` NamedTuple from the source: six string fields scraped from the
table row of the source page. -/
structure Proxy where
  ip : String
  port : String
  country : String
  anonymity : String
  https : String
  last_checked : String
deriving DecidableEq, Repr, Inhabited

/-- The network-level fault classes named by the spec.  In the source all of
these are subclasses of `requests.exceptions.RequestException`, which is the
single class caught by `check_proxy`. -/
inductive NetFault
  | timeout
  | dnsFailure
  | connectionReset
  | tlsFailure
  | proxyRefusal
  | otherRequestException
deriving DecidableEq, Repr

/-- Outcome of one probe event (`requests.get(..., proxies=..., timeout=5)`
inside `check_proxy`): either the request completed and produced a response
with an HTTP status code, or it raised a `RequestException` (any network
fault), or some non-network exception of another class was raised during the
call. -/
inductive ProbeOutcome
  | response (code : Nat)
  | requestFault (k : NetFault)
  | nonRequestFault (msg : String)
deriving DecidableEq, Repr

/-- `check_proxy` (source lines 78-96), given the outcome of its single probe
event.  The `try` block covers the request; `except
requests.exceptions.RequestException` catches exactly the network faults;
any other exception class escapes the function (`Except.error`).  On a
completed response, status code 200 yields `(proxy, "working")`, anything
else `(proxy, "not working")`. -/
def check_proxy (outcome : ProbeOutcome) (proxy : Proxy) : Except String (Proxy × String) :=
  match outcome with
  | ProbeOutcome.response code =>
      if code == 200 then Except.ok (proxy, "working")
      else Except.ok (proxy, "not working")
  | ProbeOutcome.requestFault _ => Except.ok (proxy, "not working")
  | ProbeOutcome.nonRequestFault msg => Except.error msg

/-- A sample proxy record used for concrete witnesses. -/
def sampleProxy : Proxy :=
  ⟨"51.159.115.233", "3128", "France", "elite proxy", "yes", "1 min ago"⟩

/-- A second sample proxy record, distinct from `sampleProxy`. -/
def sampleProxy2 : Proxy :=
  ⟨"185.15.172.212", "3128", "Netherlands", "anonymous", "no", "2 mins ago"⟩

/-- C2: `check_proxy` yields status `"working"` exactly when the probe
completes with response code 200; any other response code and any network
fault yield `"not working"`. -/
theorem check_proxy_working_iff_200 (outcome : ProbeOutcome) (p : Proxy) :
    (check_proxy outcome p = Except.ok (p, "working") ↔ outcome = ProbeOutcome.response 200) ∧
    (∀ c, c ≠ 200 → outcome = ProbeOutcome.response c →
      check_proxy outcome p = Except.ok (p, "not working")) ∧
    (∀ k, outcome = ProbeOutcome.requestFault k →
      check_proxy outcome p = Except.ok (p, "not working")) := by
  refine ⟨⟨?_, ?_⟩, ?_, ?_⟩
  · intro h
    cases outcome with
    | response code =>
        by_cases hc : code == 200
        · have : code = 200 := by simpa using hc
          subst this; rfl
        · simp [check_proxy, hc] at h
    | requestFault k => simp [check_proxy] at h
    | nonRequestFault m => simp [check_proxy] at h
  · intro h; subst h; rfl
  · intro c hc h
    subst h
    have hbe : (c == 200) = false := by simpa using hc
    simp [check_proxy, hbe]
  · intro k h; subst h; rfl

/-- Witness for C2 at concrete inputs: code 200 gives working, code 404 and a
timeout give not working. -/
theorem check_proxy_working_iff_200_witness :
    check_proxy (ProbeOutcome.response 200) sampleProxy = Except.ok (sampleProxy, "working") ∧
    check_proxy (ProbeOutcome.response 404) sampleProxy = Except.ok (sampleProxy, "not working") ∧
    check_proxy (ProbeOutcome.requestFault NetFault.timeout) sampleProxy
      = Except.ok (sampleProxy, "not working") :=
  ⟨(check_proxy_working_iff_200 (ProbeOutcome.response 200) sampleProxy).1.mpr rfl,
   (check_proxy_working_iff_200 (ProbeOutcome.response 404) sampleProxy).2.1 404 (by decide) rfl,
   (check_proxy_working_iff_200 (ProbeOutcome.requestFault NetFault.timeout) sampleProxy).2.2
     NetFault.timeout rfl⟩

/-- C3: every network fault class raised by the probe is caught and
normalized to the not-working result (no network exception escapes
`check_proxy`), a completed response also never raises, while an exception
of any non-network class propagates out of `check_proxy` unchanged. -/
theorem check_proxy_fault_containment :
    (∀ k p, check_proxy (ProbeOutcome.requestFault k) p = Except.ok (p, "not working")) ∧
    (∀ c p, ∃ r, check_proxy (ProbeOutcome.response c) p = Except.ok r) ∧
    (∀ msg p, check_proxy (ProbeOutcome.nonRequestFault msg) p = Except.error msg) := by
  refine ⟨fun k p => rfl, fun c p => ?_, fun msg p => rfl⟩
  by_cases hc : c == 200
  · exact ⟨(p, "working"), by simp [check_proxy, hc]⟩
  · exact ⟨(p, "not working"), by simp [check_proxy, hc]⟩

/-- C10: whenever `check_proxy` returns (rather than propagating an
exception), the first component of the returned pair is the input record
unchanged and the second component is one of the two strings `"working"` and
`"not working"`. -/
theorem check_proxy_frame (outcome : ProbeOutcome) (p : Proxy) (r : Proxy × String)
    (h : check_proxy outcome p = Except.ok r) :
    r.1 = p ∧ (r.2 = "working" ∨ r.2 = "not working") := by
  cases outcome with
  | response code =>
      by_cases hc : code == 200
      · simp [check_proxy, hc] at h
        exact ⟨by rw [← h], by rw [← h]; exact Or.inl rfl⟩
      · simp [check_proxy, hc] at h
        exact ⟨by rw [← h], by rw [← h]; exact Or.inr rfl⟩
  | requestFault k =>
      simp [check_proxy] at h
      exact ⟨by rw [← h], by rw [← h]; exact Or.inr rfl⟩
  | nonRequestFault m => simp [check_proxy] at h

/-- Witness for C10 at a concrete input. -/
theorem check_proxy_frame_witness :
    (sampleProxy2, "not working").1 = sampleProxy2 ∧
    ((sampleProxy2, "not working").2 = "working" ∨ (sampleProxy2, "not working").2 = "not working") :=
  check_proxy_frame (ProbeOutcome.requestFault NetFault.proxyRefusal) sampleProxy2
    (sampleProxy2, "not working") rfl

/-!
## The concurrent dispatcher

`main` (source lines 126-131) runs
`ThreadPoolExecutor(max_workers=100).map(check_proxy, proxies)` and writes
result `i` into slot `i` (`proxies[i] = (proxy, status)`).

`Executor.map` submits one task per input element, in input order, before
any result is consumed, and each submitted task is picked up by a free
worker; with `max_workers = K` at most `K` tasks execute at once.  Results
are yielded in submission (= input) order regardless of completion order.

We model the pool as a transition system.  `started` counts submitted tasks
handed to a worker so far (workers pick tasks up in FIFO submission order,
so the task started next is always index `started`), `inflight` is the set
of indices currently executing, and `results` records the value each
finished task returned.  Task `i` returns `f i`, where `f` abstracts the
per-index validation result; completion order is unconstrained: `finish`
may retire ANY in-flight task. -/

/-- State of the bounded worker pool. -/
structure PoolState (ρ : Type) where
  started : Nat
  inflight : List Nat
  results : Nat → Option ρ

/-- Initial pool state: nothing started, nothing in flight, no results. -/
def PoolState.init (ρ : Type) : PoolState ρ := ⟨0, [], fun _ => none⟩

/-- One scheduler step of the pool with worker cap `K` over `N` tasks where
task `i` computes `f i`: either a free worker starts the next queued task
(only when fewer than `K` tasks are in flight), or some in-flight task
completes and stores its result in its own slot. -/
inductive PoolStep (K : Nat) (f : Nat → ρ) (N : Nat) : PoolState ρ → PoolState ρ → Prop
  | start (s : PoolState ρ) (h1 : s.started < N) (h2 : s.inflight.length < K) :
      PoolStep K f N s ⟨s.started + 1, s.started :: s.inflight, s.results⟩
  | finish (s : PoolState ρ) (i : Nat) (h : i ∈ s.inflight) :
      PoolStep K f N s
        ⟨s.started, s.inflight.erase i, fun j => if j = i then some (f i) else s.results j⟩

/-- States the pool can reach from the initial state. -/
inductive PoolReachable (K : Nat) (f : Nat → ρ) (N : Nat) : PoolState ρ → Prop
  | init : PoolReachable K f N (PoolState.init ρ)
  | step {s s2 : PoolState ρ} : PoolReachable K f N s → PoolStep K f N s s2 →
      PoolReachable K f N s2

/-- The dispatch loop is finished: every task was submitted and none is
still in flight. -/
def PoolFinal (N : Nat) (s : PoolState ρ) : Prop :=
  s.started = N ∧ s.inflight = []

/-- The result sequence the caller of `executor.map` observes: slot `i` of
the results store, in index order. -/
def poolOutput (N : Nat) (s : PoolState ρ) : List (Option ρ) :=
  (List.range N).map s.results

/-- Inductive invariant of the pool. -/
def PoolInv (K : Nat) (f : Nat → ρ) (N : Nat) (s : PoolState ρ) : Prop :=
  s.started ≤ N ∧
  s.inflight.Nodup ∧
  s.inflight.length ≤ K ∧
  (∀ i ∈ s.inflight, i < s.started) ∧
  (∀ i, i < s.started → i ∉ s.inflight → s.results i = some (f i)) ∧
  (∀ i, i ∈ s.inflight ∨ s.started ≤ i → s.results i = none)

theorem poolInv_init (K : Nat) (f : Nat → ρ) (N : Nat) :
    PoolInv K f N (PoolState.init ρ) := by
  refine ⟨Nat.zero_le _, List.nodup_nil, Nat.zero_le _, ?_, ?_, ?_⟩
  · intro i hi; exact absurd hi (List.not_mem_nil i)
  · intro i hi _; exact absurd hi (Nat.not_lt_zero i)
  · intro i _; rfl

theorem poolInv_step (K : Nat) (f : Nat → ρ) (N : Nat) {s s2 : PoolState ρ}
    (hst : PoolStep K f N s s2) (hinv : PoolInv K f N s) : PoolInv K f N s2 := by
  obtain ⟨hA, hB, hC, hD, hE, hF⟩ := hinv
  cases hst with
  | start h1 h2 =>
      refine ⟨h1, ?_, ?_, ?_, ?_, ?_⟩
      · exact List.nodup_cons.mpr ⟨fun hmem => Nat.lt_irrefl _ (hD _ hmem), hB⟩
      · simpa using h2
      · intro i hi
        rcases List.mem_cons.mp hi with h | h
        · rw [h]; exact Nat.lt_succ_self _
        · exact Nat.lt_succ_of_lt (hD i h)
      · intro i hi hni
        rcases Nat.lt_succ_iff_lt_or_eq.mp hi with h | h
        · exact hE i h (fun hm => hni (List.mem_cons_of_mem _ hm))
        · exact absurd (List.mem_cons_self _ _) (h ▸ hni)
      · intro i hi
        rcases hi with h | h
        · rcases List.mem_cons.mp h with h | h
          · exact hF i (Or.inr (Nat.le_of_eq h.symm))
          · exact hF i (Or.inl h)
        · exact hF i (Or.inr (Nat.le_of_succ_le h))
  | finish i0 hmem =>
      refine ⟨hA, hB.erase i0, ?_, ?_, ?_, ?_⟩
      · exact Nat.le_trans (List.length_erase_le _ _) hC
      · intro i hi; exact hD i (List.mem_of_mem_erase hi)
      · intro i hi hni
        by_cases hieq : i = i0
        · simp [hieq]
        · have : i ∉ s.inflight := by
            intro hmem2
            exact hni ((List.mem_erase_of_ne hieq).mpr hmem2)
          simp only [if_neg hieq]
          exact hE i hi this
      · intro i hi
        have hne : i ≠ i0 := by
          intro hieq
          subst hieq
          rcases hi with h | h
          · exact (List.Nodup.not_mem_erase hB) h
          · exact Nat.not_lt.mpr h (hD i hmem)
        simp only [if_neg hne]
        rcases hi with h | h
        · exact hF i (Or.inl (List.mem_of_mem_erase h))
        · exact hF i (Or.inr h)

theorem poolInv_reachable (K : Nat) (f : Nat → ρ) (N : Nat) {s : PoolState ρ}
    (h : PoolReachable K f N s) : PoolInv K f N s := by
  induction h with
  | init => exact poolInv_init K f N
  | step _ hst ih => exact poolInv_step K f N hst ih

/-- In a final reachable state every slot `i < N` holds `some (f i)`. -/
theorem poolFinal_results (K : Nat) (f : Nat → ρ) (N : Nat) {s : PoolState ρ}
    (h : PoolReachable K f N s) (hfin : PoolFinal N s) :
    ∀ i, i < N → s.results i = some (f i) := by
  obtain ⟨_, _, _, _, hE, _⟩ := poolInv_reachable K f N h
  intro i hi
  exact hE i (hfin.1 ▸ hi) (hfin.2 ▸ List.not_mem_nil i)

/-- In a final reachable state the observed output is exactly
`f 0, ..., f (N-1)` in index order. -/
theorem poolOutput_final (K : Nat) (f : Nat → ρ) (N : Nat) {s : PoolState ρ}
    (h : PoolReachable K f N s) (hfin : PoolFinal N s) :
    poolOutput N s = (List.range N).map (fun i => some (f i)) := by
  apply List.map_congr_left
  intro i hi
  exact poolFinal_results K f N h hfin i (List.mem_range.mp hi)

theorem getD_map_range (g : Nat → α) (N i : Nat) (hi : i < N) (d : α) :
    ((List.range N).map g).getD i d = g i := by
  rw [List.getD_eq_getElem?_getD, List.getElem?_map, List.getElem?_range hi]
  rfl

/-- Helper: `check_proxy` returns its input record as the first component
whenever it returns at all. -/
theorem check_proxy_ok_fst (outcome : ProbeOutcome) (p : Proxy) (r : Proxy × String)
    (h : check_proxy outcome p = Except.ok r) : r.1 = p := by
  cases outcome with
  | response code =>
      by_cases hc : code == 200
      · simp [check_proxy, hc] at h; rw [← h]
      · simp [check_proxy, hc] at h; rw [← h]
  | requestFault k => simp [check_proxy] at h; rw [← h]
  | nonRequestFault m => simp [check_proxy] at h

/-- C1: when the pool dispatches `check_proxy` over `N` input records (task
`i` probing record `i` and returning result `f i`), every reachable final
state observes exactly `N` results in input-index order: slot `i` holds the
result for input `i` and its record component is input `i`, no matter in
which order the individual probes completed. -/
theorem dispatch_order_preserved (records : List Proxy) (oracle : Nat → ProbeOutcome)
    (f : Nat → Proxy × String)
    (hok : ∀ i, i < records.length →
      check_proxy (oracle i) (records.getD i default) = Except.ok (f i))
    (s : PoolState (Proxy × String))
    (hr : PoolReachable 100 f records.length s) (hfin : PoolFinal records.length s) :
    poolOutput records.length s = (List.range records.length).map (fun i => some (f i)) ∧
    (poolOutput records.length s).length = records.length ∧
    (∀ i, i < records.length →
      (poolOutput records.length s).getD i none = some (f i) ∧
      (f i).1 = records.getD i default) := by
  have hout := poolOutput_final 100 f records.length hr hfin
  refine ⟨hout, ?_, ?_⟩
  · simp [poolOutput]
  · intro i hi
    constructor
    · rw [hout]
      exact getD_map_range (fun i => some (f i)) records.length i hi none
    · exact check_proxy_ok_fst (oracle i) (records.getD i default) (f i) (hok i hi)

/-- Final pool state of the one-record dispatch used as a concrete witness. -/
def c1State : PoolState (Proxy × String) :=
  ⟨1, [], fun j => if j = 0 then some (sampleProxy, "working") else none⟩

theorem c1State_reachable :
    PoolReachable 100 (fun _ => (sampleProxy, "working")) 1 c1State := by
  have h0 : PoolReachable 100 (fun _ => (sampleProxy, "working")) 1
      (PoolState.init (Proxy × String)) := PoolReachable.init
  have h1 := PoolReachable.step h0 (PoolStep.start _ (by decide) (by decide))
  have h2 := PoolReachable.step h1 (PoolStep.finish _ 0 (by decide))
  exact h2

/-- Witness for C1: a concrete one-record dispatch whose probe answered 200. -/
theorem dispatch_order_preserved_witness :
    (poolOutput 1 c1State).length = 1 ∧
    (poolOutput 1 c1State).getD 0 none = some (sampleProxy, "working") ∧
    (sampleProxy, "working").1 = sampleProxy := by
  have T := dispatch_order_preserved [sampleProxy] (fun _ => ProbeOutcome.response 200)
    (fun _ => (sampleProxy, "working"))
    (by
      intro i hi
      have hi1 : i < 1 := by simpa using hi
      have : i = 0 := by omega
      subst this
      rfl)
    c1State c1State_reachable ⟨rfl, rfl⟩
  exact ⟨T.2.1, (T.2.2 0 (by decide)).1, (T.2.2 0 (by decide)).2⟩

/-- Per-task result function for the two-record witness trace. -/
def c4fun : Nat → Proxy × String := fun _ => (sampleProxy2, "not working")

/-- Final pool state of a two-record dispatch used as a concrete witness. -/
def c4State : PoolState (Proxy × String) :=
  ⟨2, [], fun j =>
    if j = 1 then some (sampleProxy2, "not working")
    else if j = 0 then some (sampleProxy2, "not working") else none⟩

theorem c4State_reachable : PoolReachable 100 c4fun 2 c4State := by
  have h0 : PoolReachable 100 c4fun 2 (PoolState.init (Proxy × String)) := PoolReachable.init
  have h1 := PoolReachable.step h0 (PoolStep.start _ (by decide) (by decide))
  have h2 := PoolReachable.step h1 (PoolStep.start _ (by decide) (by decide))
  have h3 := PoolReachable.step h2 (PoolStep.finish _ 0 (by decide))
  have h4 := PoolReachable.step h3 (PoolStep.finish _ 1 (by decide))
  exact h4

/-- C4: with worker cap 100, every reachable pool state has at most 100
probes in flight (further tasks wait for a free slot, which is the side
condition of the `start` rule), and when the dispatch loop is finished every
one of the `N` probes has run to completion and stored its result. -/
theorem pool_concurrency_bound (f : Nat → Proxy × String) (N : Nat)
    (s : PoolState (Proxy × String)) (hr : PoolReachable 100 f N s) :
    s.inflight.length ≤ 100 ∧
    (PoolFinal N s → ∀ i, i < N → (s.results i).isSome = true) := by
  refine ⟨(poolInv_reachable 100 f N hr).2.2.1, ?_⟩
  intro hfin i hi
  rw [poolFinal_results 100 f N hr hfin i hi]
  rfl

/-- Witness for C4: the two-record trace ends with an empty in-flight set
and both results stored. -/
theorem pool_concurrency_bound_witness :
    c4State.inflight.length ≤ 100 ∧ (c4State.results 0).isSome = true := by
  have T := pool_concurrency_bound c4fun 2 c4State c4State_reachable
  exact ⟨T.1, T.2 ⟨rfl, rfl⟩ 0 (by decide)⟩

/-!
## The Reporter

`export_sorted_df` (source lines 100-116) runs
`df.sort_values(by="status", inplace=True, ascending=False)` and then
`df.to_excel(f"{file_name}_{datetime_string()}.xlsx", index=False)`.

`DataFrame.sort_values` on a single column computes an ASCENDING argsort of
the column and, for `ascending=False`, reverses the whole indexer
(`pandas.core.sorting.nargsort`: `indexer = indexer[::-1]` when not
ascending).  The default `kind="quicksort"` argsort is NOT stable in
general: the numpy introsort degenerates to plain (stable) insertion sort
only below 16 elements, and above that threshold equal keys may come out
in any order.  `sortAsc` below is therefore an exact model of the argsort
only for inputs of fewer than 16 rows — which covers every concrete input
evaluated in this file — and merely one admissible argsort beyond that.
Accordingly, the general theorems about `sort_values` assert only
consequences that are invariant under reordering of equal keys (the
Working-first block partition and permutation facts), which hold for every
admissible argsort of the status column; no theorem quantified over all
inputs asserts a specific order within an equal-status block.  Statuses
are compared as Python strings, i.e. lexicographically by code point, so
`"not working" < "working"`. -/

/-- Lexicographic order on code-point sequences, as Python compares
strings: a proper prefix is smaller, otherwise the first differing
character decides. -/
def charListLt : List Char → List Char → Bool
  | _, [] => false
  | [], _ :: _ => true
  | a :: as, b :: bs =>
      if Nat.blt a.toNat b.toNat then true
      else if Nat.blt b.toNat a.toNat then false
      else charListLt as bs

/-- Python string comparison `a < b`. -/
def pyStrLt (a b : String) : Bool := charListLt a.data b.data

/-- Insert a row into an ascending-by-status list, before every row of equal
or larger status key (the inserted row is the earlier one in input order,
so this is the stable insertion). -/
def insertRow (a : Proxy × String) : List (Proxy × String) → List (Proxy × String)
  | [] => [a]
  | x :: xs => if pyStrLt x.2 a.2 then x :: insertRow a xs else a :: x :: xs

/-- Ascending insertion sort by the status column: the model of the
ascending numpy argsort inside `sort_values`.  Exact for inputs below the
16-element insertion-sort regime of the numpy introsort; one admissible
argsort (among those differing only in equal-key order) otherwise. -/
def sortAsc : List (Proxy × String) → List (Proxy × String)
  | [] => []
  | a :: l => insertRow a (sortAsc l)

/-- `df.sort_values(by="status", inplace=True, ascending=False)`: ascending
argsort of the status column, indexer reversed. -/
def sort_values (rows : List (Proxy × String)) : List (Proxy × String) :=
  (sortAsc rows).reverse

/-- Local wall-clock time to the minute, the input of
`time.strftime("%Y_%m_%d_%H%M", time.localtime())`. -/
structure LocalTime where
  year : Nat
  month : Nat
  day : Nat
  hour : Nat
  minute : Nat
deriving DecidableEq, Repr

/-- Zero-pad the decimal representation of `n` to width `w`, as the
`strftime` field formats do. -/
def padZeros (w : Nat) (n : Nat) : String :=
  String.mk (List.replicate (w - (toString n).length) '0') ++ toString n

/-- `datetime_string` (source lines 107-111):
`time.strftime("%Y_%m_%d_%H%M", time.localtime())`. -/
def datetime_string (t : LocalTime) : String :=
  padZeros 4 t.year ++ "_" ++ padZeros 2 t.month ++ "_" ++ padZeros 2 t.day ++ "_"
    ++ padZeros 2 t.hour ++ padZeros 2 t.minute

/-- The tabular artifact written by `df.to_excel(..., index=False)`: the
target file name, the header row (column names), and the data rows. -/
structure Artifact where
  fileName : String
  columns : List String
  rows : List (Proxy × String)
deriving DecidableEq, Repr

/-- Column names of `pd.DataFrame(proxies)`: the `Proxy` NamedTuple fields,
in declaration order. -/
def proxyFields : List String :=
  ["ip", "port", "country", "anonymity", "https", "last_checked"]

/-- `export_sorted_df` (source lines 100-116): sort the rows by status
descending and write them under a timestamped name; `main` adds the
`"status"` column beforehand (line 141). -/
def export_sorted_df (rows : List (Proxy × String)) (file_name : String) (t : LocalTime) :
    Artifact :=
  ⟨file_name ++ "_" ++ datetime_string t ++ ".xlsx", proxyFields ++ ["status"], sort_values rows⟩

/-- Row predicate: status cell is `"working"`. -/
def isWorking (r : Proxy × String) : Bool := r.2 == "working"

/-- Row predicate: status cell is `"not working"`. -/
def isNotWorking (r : Proxy × String) : Bool := r.2 == "not working"

theorem insertRow_all_ge (a : Proxy × String) (ys : List (Proxy × String))
    (h : ∀ y ∈ ys, pyStrLt y.2 a.2 = false) : insertRow a ys = a :: ys := by
  cases ys with
  | nil => rfl
  | cons x xs => simp [insertRow, h x (List.mem_cons_self x xs)]

theorem insertRow_append (a : Proxy × String) (xs ys : List (Proxy × String))
    (hxs : ∀ x ∈ xs, pyStrLt x.2 a.2 = true) (hys : ∀ y ∈ ys, pyStrLt y.2 a.2 = false) :
    insertRow a (xs ++ ys) = xs ++ a :: ys := by
  induction xs with
  | nil => simpa using insertRow_all_ge a ys hys
  | cons x xs ih =>
      have hx : pyStrLt x.2 a.2 = true := hxs x (List.mem_cons_self x xs)
      have ih2 := ih (fun y hy => hxs y (List.mem_cons_of_mem x hy))
      simp [insertRow, hx, ih2]

theorem sortAsc_partition (rows : List (Proxy × String))
    (h : ∀ r ∈ rows, r.2 = "working" ∨ r.2 = "not working") :
    sortAsc rows = rows.filter isNotWorking ++ rows.filter isWorking := by
  induction rows with
  | nil => rfl
  | cons a l ih =>
      have hl : ∀ r ∈ l, r.2 = "working" ∨ r.2 = "not working" :=
        fun r hr => h r (List.mem_cons_of_mem a hr)
      have hrec := ih hl
      rcases h a (List.mem_cons_self a l) with ha | ha
      · have h1 : ∀ x ∈ l.filter isNotWorking, pyStrLt x.2 a.2 = true := by
          intro x hx
          have := List.of_mem_filter hx
          have hx2 : x.2 = "not working" := by simpa [isNotWorking] using this
          rw [hx2, ha]
          decide
        have h2 : ∀ y ∈ l.filter isWorking, pyStrLt y.2 a.2 = false := by
          intro y hy
          have := List.of_mem_filter hy
          have hy2 : y.2 = "working" := by simpa [isWorking] using this
          rw [hy2, ha]
          decide
        show insertRow a (sortAsc l) = _
        rw [hrec, insertRow_append a _ _ h1 h2]
        simp [List.filter_cons, isWorking, isNotWorking, ha]
      · have hall : ∀ y ∈ l.filter isNotWorking ++ l.filter isWorking, pyStrLt y.2 a.2 = false := by
          intro y hy
          rcases List.mem_append.mp hy with hy | hy
          · have := List.of_mem_filter hy
            have hy2 : y.2 = "not working" := by simpa [isNotWorking] using this
            rw [hy2, ha]
            decide
          · have := List.of_mem_filter hy
            have hy2 : y.2 = "working" := by simpa [isWorking] using this
            rw [hy2, ha]
            decide
        show insertRow a (sortAsc l) = _
        rw [hrec, insertRow_all_ge a _ hall]
        simp [List.filter_cons, isWorking, isNotWorking, ha]

/-- Model-level closed form of the sort: Working block followed by
NotWorking block, each in reversed input order.  This equality is exact
program behaviour only below the 16-element insertion-sort regime; the
theorems quantified over all inputs use only its consequences that are
invariant under reordering within the two blocks. -/
theorem sort_values_eq (rows : List (Proxy × String))
    (h : ∀ r ∈ rows, r.2 = "working" ∨ r.2 = "not working") :
    sort_values rows
      = (rows.filter isWorking).reverse ++ (rows.filter isNotWorking).reverse := by
  rw [sort_values, sortAsc_partition rows h, List.reverse_append]

theorem isWorking_false_of_isNotWorking {r : Proxy × String} (h : isNotWorking r = true) :
    isWorking r = false := by
  have h2 : r.2 = "not working" := by simpa [isNotWorking] using h
  simp [isWorking, h2]

theorem isNotWorking_false_of_isWorking {r : Proxy × String} (h : isWorking r = true) :
    isNotWorking r = false := by
  have h2 : r.2 = "working" := by simpa [isWorking] using h
  simp [isNotWorking, h2]

theorem filter_append_tt_ff (p : Proxy × String → Bool) (xs ys : List (Proxy × String))
    (hxs : ∀ x ∈ xs, p x = true) (hys : ∀ y ∈ ys, p y = false) :
    (xs ++ ys).filter p = xs := by
  rw [List.filter_append, List.filter_eq_self.mpr hxs,
    List.filter_eq_nil_iff.mpr (fun y hy => by simp [hys y hy]), List.append_nil]

theorem filter_append_ff_tt (p : Proxy × String → Bool) (xs ys : List (Proxy × String))
    (hxs : ∀ x ∈ xs, p x = false) (hys : ∀ y ∈ ys, p y = true) :
    (xs ++ ys).filter p = ys := by
  rw [List.filter_append, List.filter_eq_self.mpr hys,
    List.filter_eq_nil_iff.mpr (fun x hx => by simp [hxs x hx]), List.nil_append]

/-- A fixed local time used in concrete witnesses. -/
def sampleTime : LocalTime := ⟨2022, 9, 5, 14, 30⟩

/-- C6 (amended): for rows whose status cells are the two values the
pipeline produces, the artifact rows consist of a Working block followed by
a NotWorking block — every Working entry precedes every NotWorking entry —
and each block is a permutation of the corresponding input rows.  The
relative order WITHIN an equal-status block is deliberately not asserted:
the default argsort is unstable above its 16-element insertion-sort
regime, so the program guarantees no particular tie order, and already at
two equal-status rows it fails to preserve input order (see the
counterexample). -/
theorem export_rows_partition (rows : List (Proxy × String)) (name : String) (t : LocalTime)
    (h : ∀ r ∈ rows, r.2 = "working" ∨ r.2 = "not working") :
    ∃ ws nws,
      (export_sorted_df rows name t).rows = ws ++ nws ∧
      ws.Perm (rows.filter isWorking) ∧
      nws.Perm (rows.filter isNotWorking) ∧
      (∀ r ∈ ws, isWorking r = true) ∧
      (∀ r ∈ nws, isNotWorking r = true) := by
  refine ⟨(rows.filter isWorking).reverse, (rows.filter isNotWorking).reverse,
    ?_, List.reverse_perm _, List.reverse_perm _, ?_, ?_⟩
  · show sort_values rows = _
    exact sort_values_eq rows h
  · exact fun r hr => List.of_mem_filter (List.mem_reverse.mp hr)
  · exact fun r hr => List.of_mem_filter (List.mem_reverse.mp hr)

/-- Witness for C6 (amended) on a concrete mixed two-row input. -/
theorem export_rows_partition_witness :
    ∃ ws nws,
      (export_sorted_df [(sampleProxy, "working"), (sampleProxy2, "not working")]
          "freeproxylist" sampleTime).rows = ws ++ nws ∧
      ws.Perm ([(sampleProxy, "working"), (sampleProxy2, "not working")].filter isWorking) ∧
      nws.Perm ([(sampleProxy, "working"), (sampleProxy2, "not working")].filter isNotWorking) ∧
      (∀ r ∈ ws, isWorking r = true) ∧
      (∀ r ∈ nws, isNotWorking r = true) :=
  export_rows_partition [(sampleProxy, "working"), (sampleProxy2, "not working")]
    "freeproxylist" sampleTime (by decide)

/-- Two rows of equal status: the input on which stability fails. -/
def c6Rows : List (Proxy × String) := [(sampleProxy, "working"), (sampleProxy2, "working")]

/-- C6 counterexample: on two Working rows the claim forces the artifact
rows to equal the input (both rows tie on status, so a stable sort must
preserve their order), but the produced rows are the input reversed.  At
this size the numpy argsort is its stable insertion sort, which the model
reproduces exactly, and the reversed indexer swaps the tied pair. -/
theorem export_rows_not_stable :
    (export_sorted_df c6Rows "freeproxylist" sampleTime).rows
      = [(sampleProxy2, "working"), (sampleProxy, "working")] ∧
    (export_sorted_df c6Rows "freeproxylist" sampleTime).rows ≠ c6Rows := by
  decide

/-- C7 (amended): the sort is NOT idempotent as a sequence transformation —
re-sorting an already Working-first-sorted sequence can change it (see the
counterexample).  What the program does guarantee, independently of the
unspecified order within equal-status blocks: re-sorting a sorted sequence
preserves the multiset of rows and again yields a Working-first block
partition, and sorting is permutation-invariant only up to equal-status
reordering — any two permutations of the same multiset sort to outputs
that are permutations of each other, not necessarily equal sequences. -/
theorem sort_values_quasi_idempotent (rows : List (Proxy × String))
    (h : ∀ r ∈ rows, r.2 = "working" ∨ r.2 = "not working") :
    (sort_values (sort_values rows)).Perm (sort_values rows) ∧
    (∃ ws nws, sort_values (sort_values rows) = ws ++ nws ∧
      (∀ r ∈ ws, isWorking r = true) ∧ (∀ r ∈ nws, isNotWorking r = true)) ∧
    (∀ rows2, rows.Perm rows2 → (sort_values rows2).Perm (sort_values rows)) := by
  have e1 := sort_values_eq rows h
  have hWt : ∀ r ∈ (rows.filter isWorking).reverse, isWorking r = true :=
    fun r hr => List.of_mem_filter (List.mem_reverse.mp hr)
  have hNWt : ∀ r ∈ (rows.filter isNotWorking).reverse, isNotWorking r = true :=
    fun r hr => List.of_mem_filter (List.mem_reverse.mp hr)
  have hsortstat : ∀ r ∈ sort_values rows, r.2 = "working" ∨ r.2 = "not working" := by
    intro r hr
    rw [e1] at hr
    rcases List.mem_append.mp hr with hr | hr
    · exact Or.inl (by simpa [isWorking] using hWt r hr)
    · exact Or.inr (by simpa [isNotWorking] using hNWt r hr)
  have e2 := sort_values_eq (sort_values rows) hsortstat
  have f1 : (sort_values rows).filter isWorking = (rows.filter isWorking).reverse := by
    rw [e1]
    exact filter_append_tt_ff _ _ _ hWt
      (fun y hy => isWorking_false_of_isNotWorking (hNWt y hy))
  have f2 : (sort_values rows).filter isNotWorking = (rows.filter isNotWorking).reverse := by
    rw [e1]
    exact filter_append_ff_tt _ _ _
      (fun x hx => isNotWorking_false_of_isWorking (hWt x hx)) hNWt
  have c1 : sort_values (sort_values rows)
      = rows.filter isWorking ++ rows.filter isNotWorking := by
    rw [e2, f1, f2, List.reverse_reverse, List.reverse_reverse]
  refine ⟨?_, ?_, ?_⟩
  · rw [c1, e1]
    exact List.Perm.append (List.reverse_perm _).symm (List.reverse_perm _).symm
  · exact ⟨rows.filter isWorking, rows.filter isNotWorking, c1,
      fun r hr => List.of_mem_filter hr, fun r hr => List.of_mem_filter hr⟩
  · intro rows2 hperm
    have h2 : ∀ r ∈ rows2, r.2 = "working" ∨ r.2 = "not working" :=
      fun r hr => h r (hperm.mem_iff.mpr hr)
    have e3 := sort_values_eq rows2 h2
    rw [e1, e3]
    exact List.Perm.append
      (((List.reverse_perm _).trans (hperm.filter isWorking).symm).trans
        (List.reverse_perm _).symm)
      (((List.reverse_perm _).trans (hperm.filter isNotWorking).symm).trans
        (List.reverse_perm _).symm)

/-- Witness for C7 (amended): a concrete two-row input and a concrete
permutation of it. -/
theorem sort_values_quasi_idempotent_witness :
    (sort_values (sort_values [(sampleProxy2, "not working"), (sampleProxy, "working")])).Perm
      (sort_values [(sampleProxy2, "not working"), (sampleProxy, "working")]) ∧
    (sort_values [(sampleProxy, "working"), (sampleProxy2, "not working")]).Perm
      (sort_values [(sampleProxy2, "not working"), (sampleProxy, "working")]) :=
  ⟨(sort_values_quasi_idempotent [(sampleProxy2, "not working"), (sampleProxy, "working")]
      (by decide)).1,
   (sort_values_quasi_idempotent [(sampleProxy2, "not working"), (sampleProxy, "working")]
      (by decide)).2.2 [(sampleProxy, "working"), (sampleProxy2, "not working")] (by decide)⟩

/-- Two NotWorking rows: already sorted Working-first, so the claim says
re-sorting leaves them unchanged. -/
def c7Rows : List (Proxy × String) := [(sampleProxy, "not working"), (sampleProxy2, "not working")]

/-- C7 counterexample: `c7Rows` is already sorted Working-first, yet sorting
it changes it (the equal-status pair is reversed), and applying the sort to
its own output changes that output again: the sort is not idempotent. -/
theorem sort_values_not_idempotent :
    sort_values c7Rows = [(sampleProxy2, "not working"), (sampleProxy, "not working")] ∧
    sort_values c7Rows ≠ c7Rows ∧
    sort_values (sort_values c7Rows) ≠ sort_values c7Rows := by
  decide

/-!
## Fetching and the pipeline entry point

`fetch_proxies` (source lines 51-73) issues `requests.get(url)` with no
`try` around it, looks the table up with `soup.find(...)` — which returns
`None` when the table markup is absent, so the subsequent
`table.find_all("tr")` raises `AttributeError` — and builds one `Proxy` per
data row from cells 0, 1, 3, 4, 6, 7 (an `IndexError` escapes for a short
row).  `main` (source lines 120-144) has no exception handling at all, so
any of these exceptions aborts the run before any validation or report;
the interpreter then exits with a nonzero status. -/

/-- What the remote source yielded: the page request raised, or a parsed
page whose proxy table is absent (`soup.find` returned `None`) or present
as a list of rows, each row being its list of `td` cell texts (including
the header row, which the slice `[1:]` drops). -/
inductive FetchPage
  | unreachable (msg : String)
  | page (table : Option (List (List String)))

/-- Build one `Proxy` from the cell texts of one table row, as the indexing
`cols[0], cols[1], cols[3], cols[4], cols[6], cols[7]` does; a row with too
few cells raises `IndexError`. -/
def parse_row (cols : List String) : Except String Proxy :=
  match cols.get? 0, cols.get? 1, cols.get? 3, cols.get? 4, cols.get? 6, cols.get? 7 with
  | some ip, some port, some country, some anonymity, some https, some last_checked =>
      Except.ok ⟨ip, port, country, anonymity, https, last_checked⟩
  | _, _, _, _, _, _ => Except.error "IndexError: list index out of range"

/-- `fetch_proxies` (source lines 51-73). -/
def fetch_proxies (pg : FetchPage) : Except String (List Proxy) :=
  match pg with
  | FetchPage.unreachable msg => Except.error msg
  | FetchPage.page none =>
      Except.error "AttributeError: NoneType object has no attribute find_all"
  | FetchPage.page (some trs) => (trs.drop 1).mapM parse_row

/-- `proxies, statuses = zip(*proxies)` (source line 137).  For a nonempty
list of pairs this yields the two component tuples; for the empty list
`zip()` yields nothing and unpacking into two names raises `ValueError`. -/
def unzip_results : List (Proxy × String) → Except String (List Proxy × List String)
  | [] => Except.error "ValueError: not enough values to unpack (expected 2, got 0)"
  | l => Except.ok (l.map Prod.fst, l.map Prod.snd)

/-- `main` (source lines 120-144), with its effects made explicit: `fetched`
is what `fetch_proxies()` produced, `f i` is the validation result the pool
computed for input index `i` (by `poolOutput_final`, the loop over
`executor.map` observes exactly `f 0, ..., f (N-1)` in index order and
stores them by index), and `t` is the local time when the report is
written.  The result is the written artifact, or the exception that aborted
the run (the process then exits with a nonzero status). -/
def main_run (fetched : Except String (List Proxy)) (f : Nat → Proxy × String) (t : LocalTime) :
    Except String Artifact :=
  match fetched with
  | Except.error e => Except.error e
  | Except.ok proxies =>
      match unzip_results ((List.range proxies.length).map f) with
      | Except.error e => Except.error e
      | Except.ok (ps, statuses) =>
          Except.ok (export_sorted_df (ps.zip statuses) "freeproxylist" t)

/-- C5: on an empty candidate list the pipeline does NOT complete: the tuple
unpacking `proxies, statuses = zip(*proxies)` raises `ValueError` because
`zip()` over zero pairs yields nothing to unpack, so no artifact (not even a
header-only one) is written and the run aborts. -/
theorem main_empty_input_raises (f : Nat → Proxy × String) (t : LocalTime) :
    main_run (Except.ok []) f t
      = Except.error "ValueError: not enough values to unpack (expected 2, got 0)" := rfl

/-- C8: any exception of the fetch stage propagates unhandled through
the entry point: no validation result is consumed and no artifact is written; the
run ends with that exception (nonzero process exit). -/
theorem fetch_failure_fatal (pg : FetchPage) (e : String) (f : Nat → Proxy × String)
    (t : LocalTime) (h : fetch_proxies pg = Except.error e) :
    main_run (fetch_proxies pg) f t = Except.error e := by
  rw [h]
  rfl

/-- Witness for C8: a page whose table markup is missing aborts the run
with the `AttributeError`. -/
theorem fetch_failure_fatal_witness :
    main_run (fetch_proxies (FetchPage.page none)) (fun _ => (sampleProxy, "working")) sampleTime
      = Except.error "AttributeError: NoneType object has no attribute find_all" :=
  fetch_failure_fatal (FetchPage.page none)
    "AttributeError: NoneType object has no attribute find_all"
    (fun _ => (sampleProxy, "working")) sampleTime rfl

/-- C9: the artifact name is the prefix, an underscore, the local time
formatted to the minute as `YYYY_MM_DD_HHMM`, and the `.xlsx` extension;
its columns are exactly the six `Proxy` fields plus the status column; and
`main` passes the prefix `"freeproxylist"`. -/
theorem export_artifact_shape (rows : List (Proxy × String)) (name : String) (t : LocalTime) :
    (export_sorted_df rows name t).fileName
      = name ++ "_" ++ padZeros 4 t.year ++ "_" ++ padZeros 2 t.month ++ "_"
        ++ padZeros 2 t.day ++ "_" ++ padZeros 2 t.hour ++ padZeros 2 t.minute ++ ".xlsx" ∧
    (export_sorted_df rows name t).columns
      = ["ip", "port", "country", "anonymity", "https", "last_checked", "status"] ∧
    datetime_string sampleTime = "2022_09_05_1430" ∧
    main_run (Except.ok [sampleProxy]) (fun _ => (sampleProxy, "working")) sampleTime
      = Except.ok ⟨"freeproxylist_2022_09_05_1430.xlsx",
          ["ip", "port", "country", "anonymity", "https", "last_checked", "status"],
          [(sampleProxy, "working")]⟩ := by
  refine ⟨?_, rfl, by decide, rfl⟩
  show name ++ "_" ++ datetime_string t ++ ".xlsx" = _
  rw [datetime_string]
  simp [String.append_assoc]
